import Mathlib

/-!
# Verification of the Xpenseit expense-report core

Shallow embedding of the repository's core logic:
* `src/services/currency.py` — `convert`
* `src/services/openai_vision.py` — `_norm_float`, `_norm_currency`, `_norm_date`, `_norm_time`
* `src/services/report_pdf.py` — entry sorting, table rows, subtotal/total aggregation
* `src/ui/components.py` — the spreadsheet ("Totals" sheet) aggregation
* `src/models.py` — `ExpenseEntry` / `ReportHeader` fields used by the above

Modelling conventions:
* Python `float` is modelled as `ℚ` (the claims under study are about the
  algebra of the computations, not IEEE rounding).
* Python `str` is modelled as `String`; character-level operations are
  implemented structurally on `List Char` so that they evaluate in the kernel.
  Unicode-only behaviours (non-ASCII upper-casing, non-ASCII whitespace and
  digits) are out of the modelled domain, which is documented per definition.
* Python `dict` is modelled as an association list with `List.lookup`.
* Fallible Python code (code that can raise) returns `Except String _`.
* `None`-able values are `Option _`; Python truthiness of a string value
  (`if not value`, `x or d`) is modelled explicitly (`""` is falsy).
-/

namespace Xpenseit

/-- Python truthiness for an optional string: `v or d` (None and `""` are falsy). -/
def pyOrStr (v : Option String) (d : String) : String :=
  match v with
  | none => d
  | some s => if s = "" then d else s

/-- Python truthiness for a plain string: `s or d` (`""` is falsy). -/
def pyOrStrS (s : String) (d : String) : String :=
  if s = "" then d else s

/-- Python truthiness for an optional number: `v or d` (None and `0.0` are falsy). -/
def pyOrQ (v : Option ℚ) (d : ℚ) : ℚ :=
  match v with
  | none => d
  | some x => if x = 0 then d else x

/-- Python truthiness for a number: `x or d` (`0.0` is falsy). -/
def pyOrQS (x : ℚ) (d : ℚ) : ℚ :=
  if x = 0 then d else x

/-- ASCII upper-casing of one character (models `str.upper` restricted to ASCII). -/
def charUpper (c : Char) : Char :=
  if 'a' ≤ c ∧ c ≤ 'z' then Char.ofNat (c.toNat - 32) else c

/-- ASCII upper-casing of a string (models `str.upper` restricted to ASCII). -/
def upperStr (s : String) : String :=
  String.mk (s.data.map charUpper)

/-- A calendar date, as Python's `datetime.date`: fields `year`, `month`, `day`.
Python guarantees `1 ≤ year ≤ 9999` and a valid month/day; the model keeps the
fields unconstrained and carries validity as a separate predicate `validDate`. -/
structure Date where
  year : ℕ
  month : ℕ
  day : ℕ
deriving DecidableEq, Repr

/-- Python `datetime.date.max`, i.e. 9999-12-31. -/
def dateMax : Date := ⟨9999, 12, 31⟩

/-- Gregorian leap-year test, as `calendar.isleap` / `datetime`. -/
def isLeap (y : ℕ) : Bool :=
  y % 4 = 0 && (y % 100 ≠ 0 || y % 400 = 0)

/-- Number of days in a month, as validated by `datetime.date`. -/
def daysInMonth (y m : ℕ) : ℕ :=
  if m = 1 ∨ m = 3 ∨ m = 5 ∨ m = 7 ∨ m = 8 ∨ m = 10 ∨ m = 12 then 31
  else if m = 4 ∨ m = 6 ∨ m = 9 ∨ m = 11 then 30
  else if isLeap y then 29 else 28

/-- The dates constructible as Python `datetime.date` objects. -/
def validDate (d : Date) : Bool :=
  1 ≤ d.year && d.year ≤ 9999 && 1 ≤ d.month && d.month ≤ 12 &&
    1 ≤ d.day && d.day ≤ daysInMonth d.year d.month

/-- Strict comparison of dates, as Python compares `date` objects:
lexicographically on (year, month, day). -/
def dateLt (a b : Date) : Prop :=
  a.year < b.year ∨ (a.year = b.year ∧
    (a.month < b.month ∨ (a.month = b.month ∧ a.day < b.day)))

instance dateLtDecidable (a b : Date) : Decidable (dateLt a b) :=
  inferInstanceAs (Decidable (_ ∨ _ ∧ (_ ∨ _ ∧ _)))

/-- `src/models.py::ExpenseEntry` — the fields the report core reads.
`id`, `notes` and the private image bytes are never read by the verified
code paths and are omitted. Amounts are `ℚ` (see module docstring). -/
structure ExpenseEntry where
  merchant_name : Option String := none
  transaction_date : Option Date := none
  transaction_time : Option String := none
  total_amount : Option ℚ := none
  currency_code : String := "USD"
  payment_method : Option String := none
  category : Option String := none
  source_name : Option String := none
deriving DecidableEq, Repr

/-! ## Currency converter — `src/services/currency.py::convert`

```python
def convert(amount, from_ccy, to_ccy, rates):
    from_ccy = from_ccy.upper()
    to_ccy = to_ccy.upper()
    if from_ccy not in rates or to_ccy not in rates:
        return amount
    if from_ccy == to_ccy:
        return amount
    base_amount = amount / rates[from_ccy]
    return base_amount * rates[to_ccy]
```

Python float division by `0.0` raises `ZeroDivisionError`; the model makes the
function return `Except String ℚ` with that error. -/

def convert (amount : ℚ) (from_ccy to_ccy : String) (rates : List (String × ℚ)) :
    Except String ℚ :=
  let f := upperStr from_ccy
  let t := upperStr to_ccy
  match rates.lookup f, rates.lookup t with
  | none, _ => .ok amount
  | some _, none => .ok amount
  | some rf, some rt =>
    if f = t then .ok amount
    else if rf = 0 then .error "ZeroDivisionError"
    else .ok (amount / rf * rt)

/-! ## Aggregator — `src/services/report_pdf.py` lines 92–95

```python
usd_sub = sum((e.total_amount or 0.0) for e in entries if (e.currency_code or "").upper() == "USD")
mxn_sub = sum((e.total_amount or 0.0) for e in entries if (e.currency_code or "").upper() == "MXN")
total_usd = usd_sub + (mxn_sub / usd_to_mxn if usd_to_mxn else 0.0)
total_mxn = mxn_sub + (usd_sub * usd_to_mxn)
``` -/

def usd_sub (entries : List ExpenseEntry) : ℚ :=
  ((entries.filter fun e => upperStr (pyOrStrS e.currency_code "") = "USD").map
    fun e => pyOrQ e.total_amount 0).sum

def mxn_sub (entries : List ExpenseEntry) : ℚ :=
  ((entries.filter fun e => upperStr (pyOrStrS e.currency_code "") = "MXN").map
    fun e => pyOrQ e.total_amount 0).sum

def total_usd (entries : List ExpenseEntry) (usd_to_mxn : ℚ) : ℚ :=
  usd_sub entries + (if usd_to_mxn ≠ 0 then mxn_sub entries / usd_to_mxn else 0)

def total_mxn (entries : List ExpenseEntry) (usd_to_mxn : ℚ) : ℚ :=
  mxn_sub entries + usd_sub entries * usd_to_mxn

/-! ## Spreadsheet export — `src/ui/components.py::get_download_bytes` (Totals sheet)

```python
usd_sub = df.loc[df["Currency"].str.upper() == "USD", "Total"].fillna(0).astype(float).sum() if not df.empty else 0.0
mxn_sub = df.loc[df["Currency"].str.upper() == "MXN", "Total"].fillna(0).astype(float).sum() if not df.empty else 0.0
total_usd = usd_sub + (mxn_sub / (header.fx_usd_to_mxn or 1))
total_mxn = mxn_sub + (usd_sub * (header.fx_usd_to_mxn or 1))
```

The dataframe rows are the per-entry row projection
`ExpenseEntry.to_row` of `src/models.py` ("Currency" = `currency_code`,
"Total" = `total_amount` if present, else the *empty string* `""`).

The blank cell matters: `""` is not a pandas missing value, so `fillna(0)`
leaves it untouched, and `.astype(float)` then raises `ValueError` on it.
The model therefore represents the "Total" cell as `Option ℚ` where `none`
stands for the empty-string cell, models `fillna(0)` as the identity on these
cells, and makes `astype(float)` — and hence each Totals-sheet value —
`Except`-valued, erroring whenever a selected row has a blank cell. -/

/-- The ("Currency", "Total") columns of one dataframe row, as produced by
`ExpenseEntry.to_row` in `src/models.py`. `Total = none` stands for the
empty-string cell written for an absent amount (not for NaN). -/
structure DfRow where
  Currency : String
  Total : Option ℚ
deriving DecidableEq, Repr

/-- `ExpenseEntry.to_row` (`src/models.py`), restricted to the columns the
Totals sheet reads: `"Total": self.total_amount if self.total_amount is not
None else ""`, the blank cell being `none` here. -/
def to_row (e : ExpenseEntry) : DfRow :=
  ⟨e.currency_code, e.total_amount⟩

/-- `fillna(0)` on the selected "Total" cells. It fills only pandas missing
values (NaN/None); the blank cell `to_row` writes is the empty string, which
is not missing — so on these dataframes the operation changes nothing. -/
def fillna0 (cells : List (Option ℚ)) : List (Option ℚ) :=
  cells

/-- `.astype(float)` on the selected "Total" cells: numeric cells pass
through, the empty-string cell (`none`) raises `ValueError`. -/
def astypeFloat : List (Option ℚ) → Except String (List ℚ)
  | [] => .ok []
  | none :: _ => .error "ValueError"
  | some x :: rest => (astypeFloat rest).map (fun xs => x :: xs)

/-- One Totals-sheet subtotal:
`df.loc[df["Currency"].str.upper() == ccy, "Total"].fillna(0).astype(float).sum()`
(the `df.empty` guard returns 0.0, which coincides with the empty sum). -/
def xlsx_sub (ccy : String) (df : List DfRow) : Except String ℚ :=
  (astypeFloat (fillna0 ((df.filter fun r => upperStr r.Currency = ccy).map
    fun r => r.Total))).map fun xs => xs.sum

/-- Totals-sheet `total_usd = usd_sub + (mxn_sub / (header.fx_usd_to_mxn or 1))`;
the subtotal computations run first and propagate their `ValueError`. -/
def xlsx_total_usd (df : List DfRow) (fx : ℚ) : Except String ℚ := do
  let u ← xlsx_sub "USD" df
  let m ← xlsx_sub "MXN" df
  pure (u + m / pyOrQS fx 1)

/-- Totals-sheet `total_mxn = mxn_sub + (usd_sub * (header.fx_usd_to_mxn or 1))`. -/
def xlsx_total_mxn (df : List DfRow) (fx : ℚ) : Except String ℚ := do
  let u ← xlsx_sub "USD" df
  let m ← xlsx_sub "MXN" df
  pure (m + u * pyOrQS fx 1)

/-! ## Report assembler — sorting and the expense table
(`src/services/report_pdf.py` lines 58–76)

```python
sorted_entries = sorted(
    entries,
    key=lambda e: (
        e.transaction_date or _date.max,
        e.transaction_time or "99:99",
    ),
)
```

Python's `sorted` is a stable sort, ascending in the `≤` order of the key
tuples; tuples compare lexicographically, dates by (year, month, day) and
time strings by code points. The model uses `List.insertionSort`, which is
likewise stable and produces a `≤`-sorted permutation. -/

/-- Python's `≤` on strings, code-point lexicographic, on the character
lists: `[] ≤ anything`; `a :: as ≤ b :: bs` iff `a < b`, or `a = b` and
`as ≤ bs`. -/
def lexLeB : List Char → List Char → Bool
  | [], _ => true
  | _ :: _, [] => false
  | a :: as, b :: bs => if a < b then true else if a = b then lexLeB as bs else false

/-- The date component of the sort key: `e.transaction_date or _date.max`
(a `date` object is always truthy). -/
def keyDate (e : ExpenseEntry) : Date :=
  e.transaction_date.getD dateMax

/-- The time component of the sort key: `e.transaction_time or "99:99"`
(`""` is falsy), as its character list. -/
def keyTime (e : ExpenseEntry) : List Char :=
  (pyOrStr e.transaction_time "99:99").data

/-- `≤` on sort keys: lexicographic on (date, time string), matching Python's
tuple comparison. -/
def entryLE (a b : ExpenseEntry) : Prop :=
  dateLt (keyDate a) (keyDate b) ∨
    (keyDate a = keyDate b ∧ lexLeB (keyTime a) (keyTime b) = true)

instance entryLEDecidable (a b : ExpenseEntry) : Decidable (entryLE a b) :=
  inferInstanceAs (Decidable (_ ∨ _ ∧ _))

/-- `sorted_entries` of `build_pdf_report`. -/
def sortEntries (entries : List ExpenseEntry) : List ExpenseEntry :=
  List.insertionSort entryLE entries

/-! ### Rendering helpers for the expense table -/

/-- Decimal digits of a natural number (through `Nat.toDigits`). -/
def natChars (n : ℕ) : List Char :=
  Nat.toDigits 10 n

/-- Zero-pad to (at least) two digits, as `f"{n:02d}"`. -/
def pad2c (n : ℕ) : List Char :=
  if n < 10 then '0' :: natChars n else natChars n

/-- Zero-pad to (at least) four digits, as the year of `date.isoformat()`. -/
def pad4c (n : ℕ) : List Char :=
  List.replicate (4 - (natChars n).length) '0' ++ natChars n

/-- `date.isoformat()`: "YYYY-MM-DD". -/
def renderDate (d : Date) : String :=
  String.mk (pad4c d.year ++ '-' :: (pad2c d.month ++ '-' :: pad2c d.day))

/-- One row of the PDF expense table (`build_pdf_report` lines 65–76):
merchant, date, time, total, currency, payment, category, source. The source
wraps some cells in `Paragraph`/link markup carrying the 1-based row index and
renders the total with `"%.2f"`; the model keeps the cell contents (the total
as its numeric value, `none` for the blank cell). -/
structure TableRow where
  merchant : String
  date : String
  time : String
  total : Option ℚ
  currency : String
  payment : String
  category : String
  source : String
deriving DecidableEq, Repr

def tableRow (e : ExpenseEntry) : TableRow where
  merchant := pyOrStr e.merchant_name ""
  date := match e.transaction_date with
    | some d => renderDate d
    | none => ""
  time := pyOrStr e.transaction_time ""
  total := e.total_amount
  currency := e.currency_code
  payment := pyOrStr e.payment_method ""
  category := pyOrStr e.category ""
  source := pyOrStr e.source_name "receipt"

/-- The entry rows of `table_data`, in sorted order (the source prepends one
column-title row, which the model omits). -/
def tableRows (entries : List ExpenseEntry) : List TableRow :=
  (sortEntries entries).map tableRow

/-! ## Field normalizer — `src/services/openai_vision.py`

All raw values are modelled as `Option String` (`None` or the result of
`str(value)`); Python truthiness of the string is explicit. Character-level
helpers are structural on `List Char`. ASCII-only restrictions (upper-casing,
`str.isdigit`, whitespace in `str.strip`) are noted per definition. -/

/-- The characters stripped by Python `str.strip()` (ASCII whitespace;
non-ASCII unicode whitespace is outside the modelled domain). -/
def isPySpace (c : Char) : Bool :=
  c = ' ' || c = '\t' || c = '\n' || c = '\x0d' || c = '\x0b' || c = '\x0c'

/-- `str.strip()` on the character list. -/
def trimChars (cs : List Char) : List Char :=
  ((cs.dropWhile isPySpace).reverse.dropWhile isPySpace).reverse

/-- `str.split(sep)` for a one-character separator (all pieces kept,
including empty ones — Python semantics). -/
def splitOnChar (sep : Char) : List Char → List (List Char)
  | [] => [[]]
  | c :: rest =>
    let r := splitOnChar sep rest
    if c = sep then [] :: r
    else
      match r with
      | h :: t => (c :: h) :: t
      | [] => [[c]]

/-- `str.isdigit()` restricted to ASCII digits: nonempty and all digits. -/
def isDigitsL (cs : List Char) : Bool :=
  !cs.isEmpty && cs.all Char.isDigit

/-- `int(s)` for a string of decimal digits. -/
def digitsToNat (cs : List Char) : ℕ :=
  cs.foldl (fun a c => 10 * a + (c.toNat - 48)) 0

/-- `f"{hh:02d}:{mm:02d}"`. -/
def renderHM (hh mm : ℕ) : String :=
  String.mk (pad2c hh ++ ':' :: pad2c mm)

/-- `_norm_time` (`src/services/openai_vision.py`):

```python
def _norm_time(value):
    if not value:
        return None
    s = str(value).strip()
    parts = s.split(":")
    if len(parts) >= 2 and all(p.isdigit() for p in parts[:2]):
        hh = int(parts[0]) % 24
        mm = int(parts[1]) % 60
        return f"{hh:02d}:{mm:02d}"
    return None
``` -/
def _norm_time (value : Option String) : Option String :=
  match value with
  | none => none
  | some s0 =>
    if s0 = "" then none
    else
      match splitOnChar ':' (trimChars s0.data) with
      | p0 :: p1 :: _ =>
        if isDigitsL p0 && isDigitsL p1 then
          some (renderHM (digitsToNat p0 % 24) (digitsToNat p1 % 60))
        else none
      | _ => none

/-- `_norm_currency` (`src/services/openai_vision.py`):

```python
def _norm_currency(value):
    if not value:
        return "USD"
    s = str(value).upper().strip()
    if len(s) == 1:  # symbols
        return {"$": "USD"}.get(s, "USD")
    return s
``` -/
def _norm_currency (value : Option String) : String :=
  match value with
  | none => "USD"
  | some s0 =>
    if s0 = "" then "USD"
    else
      let s := String.mk (trimChars (s0.data.map charUpper))
      if s.length = 1 then (List.lookup s [("$", "USD")]).getD "USD"
      else s

/-! ### `float(s)` — model of Python's float-literal parser

Restricted to finite decimal literals: optional surrounding whitespace,
optional sign, `digits`, `digits.`, `digits.digits` or `.digits`, optional
exponent `e`/`E` with optional sign. `inf`/`nan` (not values of `ℚ`) and
underscore digit grouping are outside the modelled domain. -/

/-- Exponent suffix after `e`/`E`: `[+-]?digits`, returning the scale 10^k. -/
def parseExp (cs : List Char) : Option ℚ :=
  match cs with
  | '+' :: ds => if isDigitsL ds then some ((10 : ℚ) ^ digitsToNat ds) else none
  | '-' :: ds => if isDigitsL ds then some (((10 : ℚ) ^ digitsToNat ds)⁻¹) else none
  | ds => if isDigitsL ds then some ((10 : ℚ) ^ digitsToNat ds) else none

/-- Unsigned float literal: `digits[.digits][exp]`, `digits.[exp]` or `.digits[exp]`. -/
def parseUnsignedFloat (cs : List Char) : Option ℚ :=
  let ip := cs.takeWhile Char.isDigit
  let rest1 := cs.dropWhile Char.isDigit
  match rest1 with
  | [] => if ip.isEmpty then none else some (digitsToNat ip : ℚ)
  | c :: rest2 =>
    if c = '.' then
      let fp := rest2.takeWhile Char.isDigit
      let rest3 := rest2.dropWhile Char.isDigit
      if ip.isEmpty && fp.isEmpty then none
      else
        let mant : ℚ := (digitsToNat ip : ℚ) + (digitsToNat fp : ℚ) / (10 : ℚ) ^ fp.length
        match rest3 with
        | [] => some mant
        | c2 :: rest4 =>
          if c2 = 'e' ∨ c2 = 'E' then (parseExp rest4).map (fun ex => mant * ex)
          else none
    else if c = 'e' ∨ c = 'E' then
      if ip.isEmpty then none
      else (parseExp rest2).map (fun ex => (digitsToNat ip : ℚ) * ex)
    else none

/-- `float(s)`: strip whitespace, optional sign, unsigned literal. -/
def parseFloat (cs0 : List Char) : Option ℚ :=
  match trimChars cs0 with
  | '+' :: rest => parseUnsignedFloat rest
  | '-' :: rest => (parseUnsignedFloat rest).map Neg.neg
  | cs => parseUnsignedFloat cs

/-- `_norm_float` (`src/services/openai_vision.py`):

```python
def _norm_float(value):
    if value is None:
        return None
    try:
        s = str(value).replace(",", "")
        return float(s)
    except Exception:
        return None
``` -/
def _norm_float (value : Option String) : Option ℚ :=
  match value with
  | none => none
  | some s => parseFloat (s.data.filter fun c => c != ',')

/-! ### `_norm_date` — ISO parse, then five `strptime` fallbacks

`datetime.fromisoformat` is modelled on the date/date-time grammar common to
the supported Python versions: exactly `YYYY-MM-DD`, optionally followed by a
separator (`T` or space) and a time `HH`, `HH:MM` or `HH:MM:SS`
(fractional seconds and timezone offsets are outside the modelled domain).
The `strptime` fallbacks follow CPython's `_strptime` field regexes:
`%Y` is exactly four digits, `%d` is one or two digits valued 1–31, `%m` is
one or two digits valued 1–12, and the assembled date must be constructible
(`datetime` validates day-of-month, rejecting e.g. February 30). -/

/-- Construct a date as `datetime.date(y, m, d)` does, `none` if it would raise. -/
def mkValidDate (y m d : ℕ) : Option Date :=
  if validDate ⟨y, m, d⟩ then some ⟨y, m, d⟩ else none

/-- Eight date digits `YYYY MM DD` to a validated date. -/
def parseIso8 (y1 y2 y3 y4 m1 m2 d1 d2 : Char) : Option Date :=
  if y1.isDigit && y2.isDigit && y3.isDigit && y4.isDigit &&
      m1.isDigit && m2.isDigit && d1.isDigit && d2.isDigit then
    mkValidDate (digitsToNat [y1, y2, y3, y4]) (digitsToNat [m1, m2]) (digitsToNat [d1, d2])
  else none

/-- The time-of-day part accepted after the separator: `HH`, `HH:MM`, `HH:MM:SS`. -/
def validTimePart (cs : List Char) : Bool :=
  match cs with
  | [h1, h2] => h1.isDigit && h2.isDigit && digitsToNat [h1, h2] < 24
  | [h1, h2, ':', m1, m2] =>
    h1.isDigit && h2.isDigit && m1.isDigit && m2.isDigit &&
      digitsToNat [h1, h2] < 24 && digitsToNat [m1, m2] < 60
  | [h1, h2, ':', m1, m2, ':', s1, s2] =>
    h1.isDigit && h2.isDigit && m1.isDigit && m2.isDigit && s1.isDigit && s2.isDigit &&
      digitsToNat [h1, h2] < 24 && digitsToNat [m1, m2] < 60 && digitsToNat [s1, s2] < 60
  | _ => false

/-- Model of `datetime.fromisoformat(s).date()` (restricted grammar, see above). -/
def fromiso (cs : List Char) : Option Date :=
  match cs with
  | y1 :: y2 :: y3 :: y4 :: s1 :: m1 :: m2 :: s2 :: d1 :: d2 :: rest =>
    if s1 = '-' ∧ s2 = '-' then
      match rest with
      | [] => parseIso8 y1 y2 y3 y4 m1 m2 d1 d2
      | sep :: t =>
        if sep = 'T' ∨ sep = ' ' then
          match parseIso8 y1 y2 y3 y4 m1 m2 d1 d2 with
          | some dd => if validTimePart t then some dd else none
          | none => none
        else none
    else none
  | _ => none

/-- `strptime` `%d` field: one or two digits, value 1–31. -/
def matchDay (p : List Char) : Option ℕ :=
  if isDigitsL p && p.length ≤ 2 then
    let v := digitsToNat p
    if 1 ≤ v ∧ v ≤ 31 then some v else none
  else none

/-- `strptime` `%m` field: one or two digits, value 1–12. -/
def matchMonth (p : List Char) : Option ℕ :=
  if isDigitsL p && p.length ≤ 2 then
    let v := digitsToNat p
    if 1 ≤ v ∧ v ≤ 12 then some v else none
  else none

/-- `strptime` `%Y` field: exactly four digits. -/
def matchYear4 (p : List Char) : Option ℕ :=
  if isDigitsL p && p.length = 4 then some (digitsToNat p) else none

/-- `strptime(s, "%Y<sep>%m<sep>%d").date()`. -/
def parseYMD (sep : Char) (cs : List Char) : Option Date :=
  match splitOnChar sep cs with
  | [py, pm, pd] => do
    let y ← matchYear4 py
    let m ← matchMonth pm
    let d ← matchDay pd
    mkValidDate y m d
  | _ => none

/-- `strptime(s, "%d<sep>%m<sep>%Y").date()`. -/
def parseDMY (sep : Char) (cs : List Char) : Option Date :=
  match splitOnChar sep cs with
  | [pd, pm, py] => do
    let d ← matchDay pd
    let m ← matchMonth pm
    let y ← matchYear4 py
    mkValidDate y m d
  | _ => none

/-- `strptime(s, "%m<sep>%d<sep>%Y").date()`. -/
def parseMDY (sep : Char) (cs : List Char) : Option Date :=
  match splitOnChar sep cs with
  | [pm, pd, py] => do
    let m ← matchMonth pm
    let d ← matchDay pd
    let y ← matchYear4 py
    mkValidDate y m d
  | _ => none

/-- The body of `_norm_date` on the characters of `str(value)`: ISO attempt
first, then the fallback patterns `%Y-%m-%d`, `%d/%m/%Y`, `%m/%d/%Y`,
`%d-%m-%Y`, `%m-%d-%Y` in that order. -/
def normDateChars (cs : List Char) : Option Date :=
  match fromiso cs with
  | some d => some d
  | none =>
    match parseYMD '-' cs with
    | some d => some d
    | none =>
      match parseDMY '/' cs with
      | some d => some d
      | none =>
        match parseMDY '/' cs with
        | some d => some d
        | none =>
          match parseDMY '-' cs with
          | some d => some d
          | none => parseMDY '-' cs

/-- `_norm_date` (`src/services/openai_vision.py`):

```python
def _norm_date(value):
    if not value:
        return None
    try:
        dt = datetime.fromisoformat(str(value))
        return dt.date()
    except Exception:
        for fmt in ("%Y-%m-%d", "%d/%m/%Y", "%m/%d/%Y", "%d-%m-%Y", "%m-%d-%Y"):
            try:
                return datetime.strptime(str(value), fmt).date()
            except Exception:
                continue
        return None
``` -/
def _norm_date (value : Option String) : Option Date :=
  match value with
  | none => none
  | some s => if s = "" then none else normDateChars s.data

/-! ### Concrete entries used by the scenario theorems below -/

/-- An entry of 100 USD (spec §8 scenario). -/
def entryUSD100 : ExpenseEntry := { total_amount := some 100, currency_code := "USD" }

/-- An entry of 180 MXN (spec §8 scenario). -/
def entryMXN180 : ExpenseEntry := { total_amount := some 180, currency_code := "MXN" }

/-- The spec §8 scenario batch: `[{amount:100, USD}, {amount:180, MXN}]`. -/
def scenarioEntries : List ExpenseEntry := [entryUSD100, entryMXN180]

/-- An entry in a third currency, excluded from every subtotal/total. -/
def entryEUR50 : ExpenseEntry := { total_amount := some 50, currency_code := "EUR" }

/-- A USD entry with an absent amount (its "Total" cell exports as `""`). -/
def entryUSDnoAmt : ExpenseEntry := { total_amount := none, currency_code := "USD" }

/-- An entry dated `date.max` (9999-12-31), the sort sentinel for absent dates. -/
def entryMaxDate : ExpenseEntry :=
  { transaction_date := some dateMax, transaction_time := some "12:00" }

/-- An entry with no transaction date. -/
def entryNoDate : ExpenseEntry :=
  { transaction_date := none, transaction_time := some "00:00" }

/-- A small batch exercising present, absent and maximal dates. -/
def mixedDateEntries : List ExpenseEntry := [entryUSD100, entryNoDate, entryMaxDate]

/-! # Theorems

Helper lemmas first, then one theorem per claim (with its witness or
counterexample where required). -/

lemma dateLt_trichotomy (a b : Date) : dateLt a b ∨ a = b ∨ dateLt b a := by
  rcases a with ⟨y1, m1, d1⟩
  rcases b with ⟨y2, m2, d2⟩
  simp only [dateLt, Date.mk.injEq]
  omega

lemma dateLt_trans {a b c : Date} (h1 : dateLt a b) (h2 : dateLt b c) : dateLt a c := by
  rcases a with ⟨y1, m1, d1⟩
  rcases b with ⟨y2, m2, d2⟩
  rcases c with ⟨y3, m3, d3⟩
  simp only [dateLt] at h1 h2 ⊢
  omega

lemma dateLt_irrefl (a : Date) : ¬ dateLt a a := by
  rcases a with ⟨y1, m1, d1⟩
  simp only [dateLt]
  omega

lemma lexLeB_total (a b : List Char) : lexLeB a b = true ∨ lexLeB b a = true := by
  induction a generalizing b with
  | nil => exact Or.inl rfl
  | cons x xs ih =>
    cases b with
    | nil => exact Or.inr rfl
    | cons y ys =>
      rcases lt_trichotomy x y with h | h | h
      · left; simp [lexLeB, h]
      · subst h
        rcases ih ys with h2 | h2
        · left; simp [lexLeB, h2]
        · right; simp [lexLeB, h2]
      · right; simp [lexLeB, h]

lemma lexLeB_trans {a b c : List Char} (h1 : lexLeB a b = true) (h2 : lexLeB b c = true) :
    lexLeB a c = true := by
  induction a generalizing b c with
  | nil => rfl
  | cons x xs ih =>
    cases b with
    | nil => simp [lexLeB] at h1
    | cons y ys =>
      cases c with
      | nil => simp [lexLeB] at h2
      | cons z zs =>
        by_cases hxy : x < y
        · by_cases hyz : y < z
          · simp [lexLeB, lt_trans hxy hyz]
          · by_cases hyz2 : y = z
            · subst hyz2; simp [lexLeB, hxy]
            · simp [lexLeB, hyz, hyz2] at h2
        · by_cases hxy2 : x = y
          · subst hxy2
            by_cases hyz : x < z
            · simp [lexLeB, hyz]
            · by_cases hyz2 : x = z
              · subst hyz2
                simp only [lexLeB, lt_irrefl, if_false, if_pos rfl] at h1 h2 ⊢
                exact ih h1 h2
              · simp [lexLeB, hyz, hyz2] at h2
          · simp [lexLeB, hxy, hxy2] at h1

instance : IsTotal ExpenseEntry entryLE := by
  constructor
  intro a b
  rcases dateLt_trichotomy (keyDate a) (keyDate b) with h | h | h
  · exact Or.inl (Or.inl h)
  · rcases lexLeB_total (keyTime a) (keyTime b) with ht | ht
    · exact Or.inl (Or.inr ⟨h, ht⟩)
    · exact Or.inr (Or.inr ⟨h.symm, ht⟩)
  · exact Or.inr (Or.inl h)

instance : IsTrans ExpenseEntry entryLE := by
  constructor
  intro a b c hab hbc
  rcases hab with h1 | ⟨h1, t1⟩
  · rcases hbc with h2 | ⟨h2, t2⟩
    · exact Or.inl (dateLt_trans h1 h2)
    · exact Or.inl (h2 ▸ h1)
  · rcases hbc with h2 | ⟨h2, t2⟩
    · exact Or.inl (h1 ▸ h2)
    · exact Or.inr ⟨h1.trans h2, lexLeB_trans t1 t2⟩

/-! ## Claim C1 — converter identity on unknown codes / zero rates -/

/-- C1 (counterexample). The claim states that a zero (or missing) source rate
makes `convert` return the amount unchanged without error. In the code a
*present* zero source rate hits `amount / rates[from_ccy]` and raises
`ZeroDivisionError`: with rates `{USD: 0, MXN: 18}`, converting 5 USD→MXN
errors instead of returning 5. -/
theorem claim1_counterexample :
    convert 5 "USD" "MXN" [("USD", 0), ("MXN", 18)] = .error "ZeroDivisionError" ∧
      convert 5 "USD" "MXN" [("USD", 0), ("MXN", 18)] ≠ .ok 5 := by
  refine ⟨rfl, ?_⟩
  intro h
  rw [show convert 5 "USD" "MXN" [("USD", 0), ("MXN", 18)] = .error "ZeroDivisionError" from rfl]
    at h
  simp at h

/-- C1 (amended). If the source or the target currency code (upper-cased) is
absent from the rate table, `convert` returns the amount unchanged and never
errors — the fail-soft identity behavior the claim describes for unknown
codes. (The zero-rate half of the original claim is refuted by
`claim1_counterexample`: a present zero source rate raises instead.) -/
theorem claim1_amended (amount : ℚ) (from_ccy to_ccy : String) (rates : List (String × ℚ))
    (h : rates.lookup (upperStr from_ccy) = none ∨ rates.lookup (upperStr to_ccy) = none) :
    convert amount from_ccy to_ccy rates = .ok amount := by
  unfold convert
  rcases h with h | h
  · simp [h]
  · cases hf : rates.lookup (upperStr from_ccy) <;> simp [hf, h]

/-- C1 (witness): the amended theorem applied to converting 5 "USD"→"JPY"
over the table `{USD: 1, MXN: 18}`, where the target code is unknown. -/
theorem claim1_witness :
    ([(("USD" : String), (1 : ℚ)), ("MXN", 18)].lookup (upperStr "USD") = none ∨
      [(("USD" : String), (1 : ℚ)), ("MXN", 18)].lookup (upperStr "JPY") = none) ∧
      convert 5 "USD" "JPY" [("USD", 1), ("MXN", 18)] = .ok 5 :=
  ⟨Or.inr (by decide), claim1_amended 5 "USD" "JPY" [("USD", 1), ("MXN", 18)]
    (Or.inr (by decide))⟩

/-! ## Claim C2 — the spec §8 aggregation scenario -/

/-- C2 (confirmed). With FX 18.0 and entries `[{100, USD}, {180, MXN}]`, the
aggregator of `build_pdf_report` yields subtotal-USD 100, subtotal-MXN 180,
total-USD 100 + 180/18 = 110, total-MXN 180 + 100·18 = 1980. -/
theorem claim2_scenario :
    usd_sub scenarioEntries = 100 ∧ mxn_sub scenarioEntries = 180 ∧
      total_usd scenarioEntries 18 = 110 ∧ total_mxn scenarioEntries 18 = 1980 := by
  refine ⟨?_, ?_, ?_, ?_⟩ <;>
    simp +decide [scenarioEntries, entryUSD100, entryMXN180, usd_sub, mxn_sub, total_usd,
      total_mxn, pyOrQ] <;>
    norm_num

/-! ## Claim C3 — aggregator formula; PDF vs spreadsheet totals -/

lemma pyOrStrS_empty (s : String) : pyOrStrS s "" = s := by
  unfold pyOrStrS
  split
  · simp [*]
  · rfl

lemma pyOrQ_getD (v : Option ℚ) : pyOrQ v 0 = v.getD 0 := by
  cases v with
  | none => rfl
  | some x =>
    by_cases h : x = 0 <;> simp [pyOrQ, h]

lemma filter_map_to_row (ccy : String) (l : List ExpenseEntry) :
    ((l.map to_row).filter fun r => upperStr r.Currency = ccy) =
      (l.filter fun e => upperStr (pyOrStrS e.currency_code "") = ccy).map to_row := by
  rw [List.filter_map]
  have hf : ∀ e : ExpenseEntry,
      ((fun r : DfRow => decide (upperStr r.Currency = ccy)) ∘ to_row) e =
        decide (upperStr (pyOrStrS e.currency_code "") = ccy) := by
    intro e
    simp [to_row, pyOrStrS_empty]
  rw [List.filter_congr fun e _ => hf e]

lemma astypeFloat_all_some (cells : List (Option ℚ)) (h : cells.all Option.isSome = true) :
    astypeFloat cells = .ok (cells.map fun c => c.getD 0) := by
  induction cells with
  | nil => rfl
  | cons c rest ih =>
    rw [List.all_cons, Bool.and_eq_true] at h
    cases c with
    | none => exact absurd h.1 (by simp)
    | some x => simp [astypeFloat, ih h.2, Except.map]

lemma xlsx_sub_ok (ccy : String) (l : List ExpenseEntry)
    (h : ∀ e ∈ l, upperStr e.currency_code = ccy → e.total_amount.isSome = true) :
    xlsx_sub ccy (l.map to_row) =
      .ok (((l.filter fun e => upperStr (pyOrStrS e.currency_code "") = ccy).map
        fun e => pyOrQ e.total_amount 0).sum) := by
  unfold xlsx_sub fillna0
  rw [filter_map_to_row, List.map_map]
  have hcells : (l.filter fun e => upperStr (pyOrStrS e.currency_code "") = ccy).map
      ((fun r : DfRow => r.Total) ∘ to_row) =
      (l.filter fun e => upperStr (pyOrStrS e.currency_code "") = ccy).map
        fun e => e.total_amount := by
    apply List.map_congr_left
    intro e _
    rfl
  rw [hcells]
  have hall : ((l.filter fun e => upperStr (pyOrStrS e.currency_code "") = ccy).map
      fun e => e.total_amount).all Option.isSome = true := by
    rw [List.all_eq_true]
    intro c hc
    rw [List.mem_map] at hc
    obtain ⟨e, he, rfl⟩ := hc
    have hef := List.mem_filter.mp he
    refine h e hef.1 ?_
    have hcc := of_decide_eq_true hef.2
    simpa [pyOrStrS_empty] using hcc
  rw [astypeFloat_all_some _ hall]
  simp only [Except.map, List.map_map]
  congr 2
  apply List.map_congr_left
  intro e _
  simp [pyOrQ_getD]

/-- C3 (counterexample). Two genuine divergences refute "the spreadsheet's
Totals sheet computes the same four values by the same rules": (a) at rate 0
the PDF guard zeroes the cross contribution — total-MXN of a single 100-USD
entry is 0 — while the spreadsheet substitutes 1 for the falsy rate
(`fx or 1`) and yields 100; (b) a USD entry with an absent amount contributes
0 to the PDF subtotal, but its exported "Total" cell is the empty string,
which `fillna(0)` does not fill and `astype(float)` raises `ValueError` on —
the Totals sheet errors instead of computing anything. -/
theorem claim3_counterexample :
    total_mxn [entryUSD100] 0 = 0 ∧
      xlsx_total_mxn ([entryUSD100].map to_row) 0 = .ok 100 ∧
      usd_sub [entryUSDnoAmt] = 0 ∧
      xlsx_sub "USD" ([entryUSDnoAmt].map to_row) = .error "ValueError" := by
  have hU : xlsx_sub "USD" [to_row entryUSD100] = .ok 100 := by
    simp +decide [xlsx_sub, fillna0, astypeFloat, to_row, entryUSD100, Except.map]
  have hM : xlsx_sub "MXN" [to_row entryUSD100] = .ok 0 := by
    simp +decide [xlsx_sub, fillna0, astypeFloat, to_row, entryUSD100, Except.map]
  refine ⟨?_, ?_, ?_, ?_⟩
  · simp +decide [total_mxn, usd_sub, mxn_sub, pyOrQ, entryUSD100]
  · show xlsx_total_mxn [to_row entryUSD100] 0 = .ok 100
    unfold xlsx_total_mxn
    rw [hU, hM]
    show Except.ok ((0 : ℚ) + 100 * pyOrQS 0 1) = Except.ok 100
    norm_num [pyOrQS]
  · simp +decide [usd_sub, pyOrQ, entryUSDnoAmt]
  · rfl

/-- C3 (amended). The PDF aggregator guards its division so that a zero rate
contributes 0 and never raises (`total_usd l 0 = usd_sub l`,
`total_mxn l 0 = mxn_sub l`). The spreadsheet's Totals sheet computes the
same four values from the row projection only under two further conditions,
both violated in general: the rate must be nonzero (at rate 0 it substitutes
a rate of 1, `fx or 1` — a validated `ReportHeader` does enforce
`fx ≥ 0.0001`), and every USD/MXN entry must carry a present amount — an
absent amount exports as an empty-string "Total" cell on which
`astype(float)` raises `ValueError` (see `claim3_counterexample` for both
divergences). -/
theorem claim3_amended (entries : List ExpenseEntry) (fx : ℚ) (h : fx ≠ 0)
    (hamt : (entries.all fun e =>
      !(upperStr e.currency_code == "USD" || upperStr e.currency_code == "MXN") ||
        e.total_amount.isSome) = true) :
    total_usd entries 0 = usd_sub entries ∧
      total_mxn entries 0 = mxn_sub entries ∧
      xlsx_sub "USD" (entries.map to_row) = .ok (usd_sub entries) ∧
      xlsx_sub "MXN" (entries.map to_row) = .ok (mxn_sub entries) ∧
      xlsx_total_usd (entries.map to_row) fx = .ok (total_usd entries fx) ∧
      xlsx_total_mxn (entries.map to_row) fx = .ok (total_mxn entries fx) := by
  rw [List.all_eq_true] at hamt
  have hUm : ∀ e ∈ entries, upperStr e.currency_code = "USD" →
      e.total_amount.isSome = true := by
    intro e he hc
    have hb := hamt e he
    simp +decide [hc] at hb
    exact hb
  have hMm : ∀ e ∈ entries, upperStr e.currency_code = "MXN" →
      e.total_amount.isSome = true := by
    intro e he hc
    have hb := hamt e he
    simp +decide [hc] at hb
    exact hb
  have hsu : xlsx_sub "USD" (entries.map to_row) = .ok (usd_sub entries) := by
    rw [xlsx_sub_ok "USD" entries hUm]
    rfl
  have hsm : xlsx_sub "MXN" (entries.map to_row) = .ok (mxn_sub entries) := by
    rw [xlsx_sub_ok "MXN" entries hMm]
    rfl
  refine ⟨by simp [total_usd], by simp [total_mxn], hsu, hsm, ?_, ?_⟩
  · unfold xlsx_total_usd
    rw [hsu, hsm]
    show Except.ok (usd_sub entries + mxn_sub entries / pyOrQS fx 1) =
      Except.ok (total_usd entries fx)
    simp [total_usd, pyOrQS, h]
  · unfold xlsx_total_mxn
    rw [hsu, hsm]
    show Except.ok (mxn_sub entries + usd_sub entries * pyOrQS fx 1) =
      Except.ok (total_mxn entries fx)
    simp [total_mxn, pyOrQS, h]

/-- C3 (witness): the amended theorem applied to the §8 scenario entries
(all amounts present) at rate 18. -/
theorem claim3_witness :
    (18 : ℚ) ≠ 0 ∧
      (scenarioEntries.all fun e =>
        !(upperStr e.currency_code == "USD" || upperStr e.currency_code == "MXN") ||
          e.total_amount.isSome) = true ∧
      (total_usd scenarioEntries 0 = usd_sub scenarioEntries ∧
        total_mxn scenarioEntries 0 = mxn_sub scenarioEntries ∧
        xlsx_sub "USD" (scenarioEntries.map to_row) = .ok (usd_sub scenarioEntries) ∧
        xlsx_sub "MXN" (scenarioEntries.map to_row) = .ok (mxn_sub scenarioEntries) ∧
        xlsx_total_usd (scenarioEntries.map to_row) 18 = .ok (total_usd scenarioEntries 18) ∧
        xlsx_total_mxn (scenarioEntries.map to_row) 18 = .ok (total_mxn scenarioEntries 18)) :=
  ⟨by norm_num, by decide, claim3_amended scenarioEntries 18 (by norm_num) (by decide)⟩

/-! ## Claim C4 — third-currency entries: listed, but contribute to no total -/

lemma filter_erase_of_neg {p : ExpenseEntry → Bool} {e : ExpenseEntry} (he : p e = false) :
    ∀ l : List ExpenseEntry, (l.erase e).filter p = l.filter p := by
  intro l
  induction l with
  | nil => rfl
  | cons a t ih =>
    by_cases h : a = e
    · subst h
      simp [List.erase_cons, List.filter_cons, he]
    · have hne : (a == e) = false := beq_eq_false_iff_ne.mpr h
      simp [List.erase_cons, hne, List.filter_cons, ih]

/-- C4 (confirmed). An entry whose upper-cased currency code is neither "USD"
nor "MXN" still yields its row in the report's expense table (the table lists
every entry, in sorted order), yet removing it changes none of the four
aggregator values — its amount contributes to no subtotal or total. -/
theorem claim4_third_currency (entries : List ExpenseEntry) (e : ExpenseEntry) (fx : ℚ)
    (hmem : e ∈ entries)
    (h1 : upperStr e.currency_code ≠ "USD")
    (h2 : upperStr e.currency_code ≠ "MXN") :
    tableRow e ∈ tableRows entries ∧
      usd_sub entries = usd_sub (entries.erase e) ∧
      mxn_sub entries = mxn_sub (entries.erase e) ∧
      total_usd entries fx = total_usd (entries.erase e) fx ∧
      total_mxn entries fx = total_mxn (entries.erase e) fx := by
  have hu : usd_sub entries = usd_sub (entries.erase e) := by
    unfold usd_sub
    rw [filter_erase_of_neg (p := fun e => decide (upperStr (pyOrStrS e.currency_code "") = "USD"))
      (by simp [pyOrStrS_empty, h1]) entries]
  have hm : mxn_sub entries = mxn_sub (entries.erase e) := by
    unfold mxn_sub
    rw [filter_erase_of_neg (p := fun e => decide (upperStr (pyOrStrS e.currency_code "") = "MXN"))
      (by simp [pyOrStrS_empty, h2]) entries]
  refine ⟨?_, hu, hm, ?_, ?_⟩
  · unfold tableRows
    exact List.mem_map_of_mem tableRow
      ((List.perm_insertionSort entryLE entries).mem_iff.mpr hmem)
  · unfold total_usd
    rw [hu, hm]
  · unfold total_mxn
    rw [hu, hm]

/-- C4 (witness): the theorem applied to a 50-EUR entry inside the scenario
batch extended with it. -/
theorem claim4_witness :
    entryEUR50 ∈ entryEUR50 :: scenarioEntries ∧
      upperStr entryEUR50.currency_code ≠ "USD" ∧
      upperStr entryEUR50.currency_code ≠ "MXN" ∧
      (tableRow entryEUR50 ∈ tableRows (entryEUR50 :: scenarioEntries) ∧
        usd_sub (entryEUR50 :: scenarioEntries) =
          usd_sub ((entryEUR50 :: scenarioEntries).erase entryEUR50) ∧
        mxn_sub (entryEUR50 :: scenarioEntries) =
          mxn_sub ((entryEUR50 :: scenarioEntries).erase entryEUR50) ∧
        total_usd (entryEUR50 :: scenarioEntries) 18 =
          total_usd ((entryEUR50 :: scenarioEntries).erase entryEUR50) 18 ∧
        total_mxn (entryEUR50 :: scenarioEntries) 18 =
          total_mxn ((entryEUR50 :: scenarioEntries).erase entryEUR50) 18) :=
  ⟨List.mem_cons_self _ _, by decide, by decide,
    claim4_third_currency (entryEUR50 :: scenarioEntries) entryEUR50 18
      (List.mem_cons_self _ _) (by decide) (by decide)⟩

/-! ## Claim C5 — sort order of the expense table -/

lemma daysInMonth_le (y m : ℕ) : daysInMonth y m ≤ 31 := by
  unfold daysInMonth
  split
  · omega
  · split
    · omega
    · split <;> omega

lemma not_dateMax_lt {d : Date} (hd : validDate d = true) : ¬ dateLt dateMax d := by
  intro hlt
  have h31 := daysInMonth_le d.year d.month
  rcases d with ⟨y, m, dd⟩
  simp only [validDate, Bool.and_eq_true, decide_eq_true_eq] at hd
  simp only [dateLt, dateMax] at hlt
  simp only at h31
  omega

/-- C5 (counterexample). The claim says absent-date entries sort strictly
after all present-date entries regardless of time. The absent-date key is the
sentinel `date.max` = 9999-12-31 — itself a constructible date — so an entry
actually dated 9999-12-31 ties with absent-date entries and the time decides:
here the absent-date entry (time "00:00") sorts *before* the entry dated
9999-12-31 (time "12:00"). -/
theorem claim5_counterexample :
    sortEntries [entryMaxDate, entryNoDate] = [entryNoDate, entryMaxDate] ∧
      entryNoDate.transaction_date = none ∧
      entryMaxDate.transaction_date = some dateMax ∧
      validDate dateMax = true ∧
      entryMaxDate ≠ entryNoDate := by
  decide

/-- C5 (amended). For every collection whose present dates are constructible
Python dates, the assembler's sort is a permutation of the input, sorted
ascending by the key (date with `date.max` substituted for absent, then time
string with "99:99" substituted for absent or empty, compared
lexicographically); consequently an absent-date entry is never followed by an
entry whose present date differs from the sentinel `date.max` = 9999-12-31,
and among equal date keys the time keys are ascending. -/
theorem claim5_amended (l : List ExpenseEntry)
    (hv : (l.all fun e => e.transaction_date.all validDate) = true) :
    (sortEntries l).Perm l ∧
      List.Sorted entryLE (sortEntries l) ∧
      (sortEntries l).Pairwise (fun a b => a.transaction_date = none →
        b.transaction_date = none ∨ b.transaction_date = some dateMax) ∧
      (sortEntries l).Pairwise (fun a b => keyDate a = keyDate b →
        lexLeB (keyTime a) (keyTime b) = true) := by
  have hperm : (sortEntries l).Perm l := List.perm_insertionSort entryLE l
  have hsorted : List.Sorted entryLE (sortEntries l) := List.sorted_insertionSort entryLE l
  rw [List.all_eq_true] at hv
  refine ⟨hperm, hsorted, ?_, ?_⟩
  · refine List.Pairwise.imp_of_mem ?_ hsorted
    intro a b ha hb hab hnone
    have hka : keyDate a = dateMax := by simp [keyDate, hnone]
    rcases hab with hlt | ⟨heq, _⟩
    · rw [hka] at hlt
      cases hbd : b.transaction_date with
      | none =>
        simp only [keyDate, hbd, Option.getD_none] at hlt
        exact absurd hlt (dateLt_irrefl _)
      | some d =>
        have hd : validDate d = true := by
          have hball := hv b (hperm.mem_iff.mp hb)
          rw [hbd] at hball
          simpa using hball
        simp only [keyDate, hbd, Option.getD_some] at hlt
        exact absurd hlt (not_dateMax_lt hd)
    · rw [hka] at heq
      cases hbd : b.transaction_date with
      | none => exact Or.inl rfl
      | some d =>
        simp only [keyDate, hbd, Option.getD_some] at heq
        exact Or.inr (by rw [← heq])
  · refine List.Pairwise.imp ?_ hsorted
    intro a b hab
    intro hk
    rcases hab with hlt | ⟨_, hle⟩
    · rw [hk] at hlt
      exact absurd hlt (dateLt_irrefl _)
    · exact hle

/-- C5 (witness): the amended theorem applied to a batch with a present
ordinary date, an absent date and the maximal date. -/
theorem claim5_witness :
    (mixedDateEntries.all fun e => e.transaction_date.all validDate) = true ∧
      ((sortEntries mixedDateEntries).Perm mixedDateEntries ∧
        List.Sorted entryLE (sortEntries mixedDateEntries) ∧
        (sortEntries mixedDateEntries).Pairwise (fun a b => a.transaction_date = none →
          b.transaction_date = none ∨ b.transaction_date = some dateMax) ∧
        (sortEntries mixedDateEntries).Pairwise (fun a b => keyDate a = keyDate b →
          lexLeB (keyTime a) (keyTime b) = true)) :=
  ⟨by decide, claim5_amended mixedDateEntries (by decide)⟩

/-! ## Claim C6 — date parsing: ISO first, then five patterns in fixed order -/

/-- C6 (confirmed). `_norm_date` returns absent on null/empty input; attempts
the ISO parse first (a successful ISO parse wins outright); otherwise tries
`%Y-%m-%d`, `%d/%m/%Y`, `%m/%d/%Y`, `%d-%m-%Y`, `%m-%d-%Y` in exactly that
order, the first success winning; returns absent when all fail; and in
particular reads the ambiguous "05/03/2024" as DD/MM — March 5, 2024. -/
theorem claim6_date_order :
    _norm_date none = none ∧
      _norm_date (some "") = none ∧
      (∀ s d, fromiso s.data = some d → _norm_date (some s) = some d) ∧
      (∀ s d, fromiso s.data = none → parseYMD '-' s.data = some d →
        _norm_date (some s) = some d) ∧
      (∀ s d, fromiso s.data = none → parseYMD '-' s.data = none →
        parseDMY '/' s.data = some d → _norm_date (some s) = some d) ∧
      (∀ s d, fromiso s.data = none → parseYMD '-' s.data = none →
        parseDMY '/' s.data = none → parseMDY '/' s.data = some d →
        _norm_date (some s) = some d) ∧
      (∀ s d, fromiso s.data = none → parseYMD '-' s.data = none →
        parseDMY '/' s.data = none → parseMDY '/' s.data = none →
        parseDMY '-' s.data = some d → _norm_date (some s) = some d) ∧
      (∀ s d, fromiso s.data = none → parseYMD '-' s.data = none →
        parseDMY '/' s.data = none → parseMDY '/' s.data = none →
        parseDMY '-' s.data = none → parseMDY '-' s.data = some d →
        _norm_date (some s) = some d) ∧
      (∀ s, fromiso s.data = none → parseYMD '-' s.data = none →
        parseDMY '/' s.data = none → parseMDY '/' s.data = none →
        parseDMY '-' s.data = none → parseMDY '-' s.data = none →
        _norm_date (some s) = none) ∧
      _norm_date (some "05/03/2024") = some ⟨2024, 3, 5⟩ := by
  have hed : ("" : String).data = [] := rfl
  refine ⟨rfl, by decide, ?_, ?_, ?_, ?_, ?_, ?_, ?_, by decide⟩
  · intro s d h
    by_cases hs : s = ""
    · subst hs
      rw [hed] at h
      simp [fromiso] at h
    · simp [_norm_date, hs, normDateChars, h]
  · intro s d h1 h2
    by_cases hs : s = ""
    · subst hs
      rw [hed] at h2
      simp [parseYMD, splitOnChar] at h2
    · simp [_norm_date, hs, normDateChars, h1, h2]
  · intro s d h1 h2 h3
    by_cases hs : s = ""
    · subst hs
      rw [hed] at h3
      simp [parseDMY, splitOnChar] at h3
    · simp [_norm_date, hs, normDateChars, h1, h2, h3]
  · intro s d h1 h2 h3 h4
    by_cases hs : s = ""
    · subst hs
      rw [hed] at h4
      simp [parseMDY, splitOnChar] at h4
    · simp [_norm_date, hs, normDateChars, h1, h2, h3, h4]
  · intro s d h1 h2 h3 h4 h5
    by_cases hs : s = ""
    · subst hs
      rw [hed] at h5
      simp [parseDMY, splitOnChar] at h5
    · simp [_norm_date, hs, normDateChars, h1, h2, h3, h4, h5]
  · intro s d h1 h2 h3 h4 h5 h6
    by_cases hs : s = ""
    · subst hs
      rw [hed] at h6
      simp [parseMDY, splitOnChar] at h6
    · simp [_norm_date, hs, normDateChars, h1, h2, h3, h4, h5, h6]
  · intro s h1 h2 h3 h4 h5 h6
    by_cases hs : s = ""
    · subst hs
      decide
    · simp [_norm_date, hs, normDateChars, h1, h2, h3, h4, h5, h6]

/-- C6 (witness): the pattern-priority conjuncts applied at concrete inputs —
"05/03/2024" parses by the second fallback `%d/%m/%Y` (ISO and `%Y-%m-%d`
fail) as March 5; "03/25/2024" falls through to `%m/%d/%Y`. -/
theorem claim6_witness :
    fromiso ("05/03/2024").data = none ∧
      parseYMD '-' ("05/03/2024").data = none ∧
      parseDMY '/' ("05/03/2024").data = some ⟨2024, 3, 5⟩ ∧
      _norm_date (some "05/03/2024") = some ⟨2024, 3, 5⟩ ∧
      _norm_date (some "03/25/2024") = some ⟨2024, 3, 25⟩ :=
  ⟨by decide, by decide, by decide,
    claim6_date_order.2.2.2.2.1 "05/03/2024" ⟨2024, 3, 5⟩ (by decide) (by decide) (by decide),
    claim6_date_order.2.2.2.2.2.1 "03/25/2024" ⟨2024, 3, 25⟩ (by decide) (by decide) (by decide)
      (by decide)⟩

/-! ## Claim C7 — time normalization -/

/-- C7 (counterexample). The claim conditions on the colon segments of the
raw value and sends "every other input" to absent; but the code strips
surrounding whitespace first. For raw " 25:61" the first raw segment " 25"
is not purely numeric — per the claim the result should be absent — yet the
code returns "01:01". -/
theorem claim7_counterexample :
    splitOnChar ':' (" 25:61").data = [[' ', '2', '5'], ['6', '1']] ∧
      isDigitsL [' ', '2', '5'] = false ∧
      _norm_time (some " 25:61") = some "01:01" := by
  decide

/-- C7 (amended). After stripping surrounding whitespace: a value whose
stripped form has at least two colon segments with the first two purely
numeric wraps hour mod 24 and minute mod 60 and re-renders zero-padded
("25:61" → "01:01"); every other input (including null/empty) normalizes to
absent; and every produced time is `renderHM hh mm` with `hh < 24` and
`mm < 60`. -/
theorem claim7_amended :
    _norm_time none = none ∧
      _norm_time (some "") = none ∧
      (∀ s p0 p1 rest, s ≠ "" →
        splitOnChar ':' (trimChars s.data) = p0 :: p1 :: rest →
        isDigitsL p0 = true → isDigitsL p1 = true →
        _norm_time (some s) = some (renderHM (digitsToNat p0 % 24) (digitsToNat p1 % 60))) ∧
      (∀ s p0 p1 rest,
        splitOnChar ':' (trimChars s.data) = p0 :: p1 :: rest →
        (isDigitsL p0 && isDigitsL p1) = false → _norm_time (some s) = none) ∧
      (∀ s p0, splitOnChar ':' (trimChars s.data) = [p0] → _norm_time (some s) = none) ∧
      (∀ s t, _norm_time (some s) = some t →
        ∃ hh mm, hh < 24 ∧ mm < 60 ∧ t = renderHM hh mm) ∧
      _norm_time (some "25:61") = some "01:01" := by
  refine ⟨rfl, by decide, ?_, ?_, ?_, ?_, by decide⟩
  · intro s p0 p1 rest hs hsplit h0 h1
    simp [_norm_time, hs, hsplit, h0, h1]
  · intro s p0 p1 rest hsplit hb
    by_cases hs : s = ""
    · simp [_norm_time, hs]
    · simp [_norm_time, hs, hsplit, hb]
  · intro s p0 hsplit
    by_cases hs : s = ""
    · simp [_norm_time, hs]
    · simp [_norm_time, hs, hsplit]
  · intro s t h
    simp only [_norm_time] at h
    split at h
    · exact absurd h (by simp)
    · split at h
      · split at h
        · rename_i x p0 p1 rest heq hdig
          refine ⟨digitsToNat p0 % 24, digitsToNat p1 % 60, Nat.mod_lt _ (by omega),
            Nat.mod_lt _ (by omega), ?_⟩
          injection h with h2
          exact h2.symm
        · exact absurd h (by simp)
      · exact absurd h (by simp)

/-- C7 (witness): the amended acceptance conjunct applied to "25:61", and the
reject conjunct applied to "noon". -/
theorem claim7_witness :
    ("25:61" : String) ≠ "" ∧
      splitOnChar ':' (trimChars ("25:61").data) = [['2', '5'], ['6', '1']] ∧
      isDigitsL ['2', '5'] = true ∧ isDigitsL ['6', '1'] = true ∧
      _norm_time (some "25:61") =
        some (renderHM (digitsToNat ['2', '5'] % 24) (digitsToNat ['6', '1'] % 60)) ∧
      splitOnChar ':' (trimChars ("noon").data) = [['n', 'o', 'o', 'n']] ∧
      _norm_time (some "noon") = none :=
  ⟨by decide, by decide, by decide, by decide,
    claim7_amended.2.2.1 "25:61" ['2', '5'] ['6', '1'] [] (by decide) (by decide) (by decide)
      (by decide),
    by decide,
    claim7_amended.2.2.2.2.1 "noon" ['n', 'o', 'o', 'n'] (by decide)⟩

/-! ## Claim C8 — currency-code normalization -/

/-- C8 (counterexample). The claim routes "any longer input" (length > 1) to
"uppercase and trim". But the code measures length *after* upper-casing and
trimming: the three-character input " M " trims to the single character "M"
and is routed through the symbol table to the default "USD", not to "M". -/
theorem claim8_counterexample :
    _norm_currency (some " M ") = "USD" ∧
      (" M " : String).length ≠ 1 ∧
      (" M " : String) ≠ "" ∧
      String.mk (trimChars ((" M ").data.map charUpper)) = "M" ∧
      ("USD" : String) ≠ "M" := by
  decide

lemma lookup_singleton_getD (k a v d : String) :
    (List.lookup k [(a, v)]).getD d = if k = a then v else d := by
  by_cases h : k = a
  · simp [List.lookup, h]
  · have h2 : (k == a) = false := beq_eq_false_iff_ne.mpr h
    simp [List.lookup, h2, h]

/-- C8 (amended). Null/empty input defaults to "USD"; otherwise the input is
upper-cased and trimmed first; if the *result* is a single character it is
looked up in the symbol table `{"$": "USD"}` with default "USD" (so "$" maps
to USD and any other single character also defaults to USD); otherwise the
upper-cased trimmed string is returned as the code, with no length
validation. -/
theorem claim8_amended :
    _norm_currency none = "USD" ∧
      _norm_currency (some "") = "USD" ∧
      _norm_currency (some "$") = "USD" ∧
      (∀ s, s ≠ "" → (String.mk (trimChars (s.data.map charUpper))).length = 1 →
        _norm_currency (some s) = "USD") ∧
      (∀ s, s ≠ "" → (String.mk (trimChars (s.data.map charUpper))).length ≠ 1 →
        _norm_currency (some s) = String.mk (trimChars (s.data.map charUpper))) := by
  refine ⟨rfl, by decide, by decide, ?_, ?_⟩
  · intro s hs hl
    simp only [_norm_currency, if_neg hs, if_pos hl, lookup_singleton_getD]
    split <;> rfl
  · intro s hs hl
    simp only [_norm_currency, if_neg hs, if_neg hl]

/-- C8 (witness): the amended theorem applied to " M " (single character
after trimming → default USD) and to "mxn " (longer → upper-cased, trimmed
code "MXN"). -/
theorem claim8_witness :
    (" M " : String) ≠ "" ∧
      (String.mk (trimChars ((" M ").data.map charUpper))).length = 1 ∧
      _norm_currency (some " M ") = "USD" ∧
      ("mxn " : String) ≠ "" ∧
      (String.mk (trimChars (("mxn ").data.map charUpper))).length ≠ 1 ∧
      _norm_currency (some "mxn ") = String.mk (trimChars (("mxn ").data.map charUpper)) :=
  ⟨by decide, by decide, claim8_amended.2.2.2.1 " M " (by decide) (by decide),
    by decide, by decide, claim8_amended.2.2.2.2 "mxn " (by decide) (by decide)⟩

/-! ## Claim C9 — amount normalization -/

/-- C9 (confirmed). `_norm_float` is a total function (the model never
raises by construction, matching the code's catch-all): null yields absent;
removing the commas from the input does not change the result (comma
thousands separators are stripped before parsing); an input whose
comma-stripped form is unparseable yields absent; and "1,234.56" parses to
1234.56 while "abc" yields absent. -/
theorem claim9_amount :
    _norm_float none = none ∧
      (∀ s, _norm_float (some (String.mk (s.data.filter fun c => c != ','))) =
        _norm_float (some s)) ∧
      (∀ s, parseFloat (s.data.filter fun c => c != ',') = none →
        _norm_float (some s) = none) ∧
      _norm_float (some "1,234.56") = some (1234.56 : ℚ) ∧
      _norm_float (some "abc") = none := by
  refine ⟨rfl, ?_, ?_, ?_, by decide⟩
  · intro s
    simp [_norm_float, List.filter_filter]
  · intro s h
    simp [_norm_float, h]
  · simp +decide [_norm_float, parseFloat, parseUnsignedFloat, parseExp, trimChars, isPySpace,
      digitsToNat, List.takeWhile, List.dropWhile, List.filter]
    norm_num

/-- C9 (witness): the unparseable-input conjunct applied to "abc". -/
theorem claim9_witness :
    parseFloat (("abc").data.filter fun c => c != ',') = none ∧
      _norm_float (some "abc") = none :=
  ⟨by decide, claim9_amount.2.2.1 "abc" (by decide)⟩

/-! ## Claim C10 — ISO date-time strings are accepted, time discarded -/

/-- C10 (confirmed). The ISO attempt of `_norm_date` also accepts a full
date-time string — ten date characters, a 'T' or space separator, and a
valid time-of-day — and returns just the calendar date, discarding the
time. -/
theorem claim10_iso_datetime (y1 y2 y3 y4 m1 m2 d1 d2 : Char) (ts : List Char) (d : Date)
    (h : parseIso8 y1 y2 y3 y4 m1 m2 d1 d2 = some d) (ht : validTimePart ts = true) :
    fromiso (y1 :: y2 :: y3 :: y4 :: '-' :: m1 :: m2 :: '-' :: d1 :: d2 :: 'T' :: ts) =
        some d ∧
      fromiso (y1 :: y2 :: y3 :: y4 :: '-' :: m1 :: m2 :: '-' :: d1 :: d2 :: ' ' :: ts) =
        some d ∧
      normDateChars (y1 :: y2 :: y3 :: y4 :: '-' :: m1 :: m2 :: '-' :: d1 :: d2 :: 'T' :: ts) =
        some d ∧
      (∀ s : String,
        s.data = y1 :: y2 :: y3 :: y4 :: '-' :: m1 :: m2 :: '-' :: d1 :: d2 :: 'T' :: ts →
        _norm_date (some s) = some d) := by
  have hT : fromiso (y1 :: y2 :: y3 :: y4 :: '-' :: m1 :: m2 :: '-' :: d1 :: d2 :: 'T' :: ts) =
      some d := by
    simp [fromiso, h, ht]
  have hSp : fromiso (y1 :: y2 :: y3 :: y4 :: '-' :: m1 :: m2 :: '-' :: d1 :: d2 :: ' ' :: ts) =
      some d := by
    simp [fromiso, h, ht]
  have hn : normDateChars
      (y1 :: y2 :: y3 :: y4 :: '-' :: m1 :: m2 :: '-' :: d1 :: d2 :: 'T' :: ts) = some d := by
    simp [normDateChars, hT]
  refine ⟨hT, hSp, hn, ?_⟩
  intro s hsdata
  have hs : s ≠ "" := by
    intro he
    subst he
    rw [show ("" : String).data = [] from rfl] at hsdata
    exact List.noConfusion hsdata
  simp [_norm_date, hs, hsdata, hn]

/-- C10 (witness): the theorem applied to "2024-03-05T14:30:00", which
normalizes to the date 2024-03-05. -/
theorem claim10_witness :
    parseIso8 '2' '0' '2' '4' '0' '3' '0' '5' = some ⟨2024, 3, 5⟩ ∧
      validTimePart ("14:30:00").data = true ∧
      _norm_date (some "2024-03-05T14:30:00") = some ⟨2024, 3, 5⟩ :=
  ⟨by decide, by decide,
    (claim10_iso_datetime '2' '0' '2' '4' '0' '3' '0' '5' ("14:30:00").data ⟨2024, 3, 5⟩
      (by decide) (by decide)).2.2.2 "2024-03-05T14:30:00" (by decide)⟩

end Xpenseit
